import Mathlib

/-!
# Verification of the sarama-ai structured logger and HTTP boundary

Shallow embedding of the Go repository `sarama-ai`:

* `logger` package (src/unnamed/part_001): level-gated structured logger
  with field derivation (`WithField`/`WithFields`), line formatting, a
  fallback writer, `Fatal` process exit, and a global logger registry.
* `cmd` package (src/cmd/data_parser.go, src/unnamed/part_002): Confluence
  webhook handler, health-check handler, and environment-based config.

Go slices are modelled faithfully: a slice is a (array id, length,
capacity) triple over a heap of backing arrays, and `append` either writes
in place (when capacity suffices) or reallocates, exactly as Go's
`growslice` does for small slices (the malloc size-class round-up of the
new capacity is omitted; it can only enlarge capacities, i.e. only make
in-place sharing more frequent).  External effects (clock, `runtime.Caller`,
the process environment, sink write success) are passed as explicit
parameters; sinks are modelled as buffers of written strings.
-/

namespace Sarama

/-- Values storable in a log `Field` (`interface{}` in Go), restricted to
the printable kinds exercised here; `goFmtValue` is Go's `%v` on them. -/
inductive Value where
  | VInt (i : Int)
  | VStr (s : String)
  | VBool (b : Bool)
deriving DecidableEq, Repr

/-- Go `fmt.Sprintf("%v", v)` for the supported value kinds. -/
def goFmtValue : Value → String
  | .VInt i => toString i
  | .VStr s => s
  | .VBool b => if b then "true" else "false"

/-- `type Field struct { Key string; Value interface{} }`. -/
structure Field where
  key : String
  value : Value
deriving DecidableEq, Repr

/-- Heap of backing arrays for Go slices of `Field`. -/
structure Heap where
  arrays : List (List Field)
deriving DecidableEq, Repr

/-- A Go slice header: backing-array id, length, capacity. -/
structure Slice where
  arr : Nat
  len : Nat
  cap : Nat
deriving DecidableEq, Repr

/-- The elements denoted by a slice: the first `len` cells of its array. -/
def heapRead (h : Heap) (s : Slice) : List Field :=
  (h.arrays.getD s.arr []).take s.len

/-- Well-formedness of a slice over a heap: the array exists and holds at
least `len` cells, and `len ≤ cap` (Go's slice invariant). -/
def wfSlice (h : Heap) (s : Slice) : Prop :=
  s.arr < h.arrays.length ∧ s.len ≤ s.cap ∧ s.len ≤ (h.arrays.getD s.arr []).length

instance (h : Heap) (s : Slice) : Decidable (wfSlice h s) := by
  unfold wfSlice; infer_instance

/-- New capacity chosen by Go's `growslice` for small element counts:
the doubled old capacity, or the needed length if that is larger
(size-class round-up omitted, see the file header). -/
def growCap (oldCap needed : Nat) : Nat := max needed (2 * oldCap)

/-- Go `append(s, xs...)`: if the new length fits the capacity the
elements are written into the backing array in place (this is the sharing
the spec's copy-on-write invariant is about); otherwise a fresh array is
allocated and the contents copied. -/
def appendSlice (h : Heap) (s : Slice) (xs : List Field) : Heap × Slice :=
  if s.len + xs.length ≤ s.cap then
    let a := h.arrays.getD s.arr []
    let a' := a.take s.len ++ xs ++ a.drop (s.len + xs.length)
    (⟨h.arrays.set s.arr a'⟩, ⟨s.arr, s.len + xs.length, s.cap⟩)
  else
    (⟨h.arrays ++ [(h.arrays.getD s.arr []).take s.len ++ xs]⟩,
     ⟨h.arrays.length, s.len + xs.length, growCap s.cap (s.len + xs.length)⟩)

/-- `type Level int`. -/
abbrev Level := Int

def DebugLevel : Level := 0
def InfoLevel : Level := 1
def WarnLevel : Level := 2
def ErrorLevel : Level := 3
def FatalLevel : Level := 4

/-- `levelNames` map lookup; a Go map read of a missing key yields the
zero value `""`. -/
def levelNames (level : Level) : String :=
  if level = DebugLevel then "DEBUG"
  else if level = InfoLevel then "INFO"
  else if level = WarnLevel then "WARN"
  else if level = ErrorLevel then "ERROR"
  else if level = FatalLevel then "FATAL"
  else ""

/-- `type zapLogger struct` — level, output sink (an id into the world's
sink table, standing for the `io.Writer`), accumulated-field slice, caller
flag and skip depth.  The mutex only serialises concurrent writes and has
no sequential content, so it is not part of the model. -/
structure zapLogger where
  level : Level
  output : Nat
  fields : Slice
  caller : Bool
  callerSkip : Nat
deriving DecidableEq, Repr

/-- Result of `runtime.Caller(skip)` when `ok`: file path, line, and the
fully qualified function name (`runtime.FuncForPC(pc).Name()`). -/
structure Frame where
  file : String
  line : Nat
  funcName : String
deriving DecidableEq, Repr

/-- World state threaded through the logging calls: the slice heap, the
content written to every sink, whether writes to a sink succeed, the
fallback standard logger's buffer, and the process exit status. -/
structure World where
  heap : Heap
  sinks : Nat → List String
  sinkOk : Nat → Bool
  fallback : List String
  exited : Option Int

/-- Sink id standing for `os.Stdout`. -/
def stdoutSink : Nat := 0

/-- `func New(level Level) Logger` (sink `os.Stdout`, empty field slice
from `make([]Field, 0)`, caller capture on, skip depth 2). -/
def New (h : Heap) (level : Level) : Heap × zapLogger :=
  (⟨h.arrays ++ [[]]⟩,
   { level := level, output := stdoutSink, fields := ⟨h.arrays.length, 0, 0⟩,
     caller := true, callerSkip := 2 })

/-- `func NewWithWriter(level Level, output io.Writer) Logger`. -/
def NewWithWriter (h : Heap) (level : Level) (output : Nat) : Heap × zapLogger :=
  (⟨h.arrays ++ [[]]⟩,
   { level := level, output := output, fields := ⟨h.arrays.length, 0, 0⟩,
     caller := true, callerSkip := 2 })

/-- Go `filepath.Base`: strip trailing slashes, keep the last component. -/
def filepathBase (p : String) : String :=
  if p = "" then "."
  else
    let stripped := (p.toList.reverse.dropWhile (· = '/')).reverse
    let name := (stripped.reverse.takeWhile (· ≠ '/')).reverse
    if name = [] then "/" else String.mk name

/-- Short function name: everything after the last `'.'`
(`strings.LastIndexByte(funcName, '.')`). -/
def shortFuncName (fn : String) : String :=
  if fn.toList.contains '.' then String.mk ((fn.toList.reverse.takeWhile (· ≠ '.')).reverse)
  else fn

/-- The `caller` string built in `zapLogger.log`: empty when caller
capture is off or `runtime.Caller` failed, else `file:line (func)` with
the file's base name and the short function name. -/
def callerStrOf (l : zapLogger) (fr : Option Frame) : String :=
  if l.caller then
    match fr with
    | some c => filepathBase c.file ++ ":" ++ toString c.line ++ " (" ++ shortFuncName c.funcName ++ ")"
    | none => ""
  else ""

/-- One `key=value` token (`fmt.Sprintf("%s=%v", f.Key, f.Value)`). -/
def renderField (f : Field) : String := f.key ++ "=" ++ goFmtValue f.value

/-- The `fieldsStr` loop of `zapLogger.log`: empty for no fields, else a
leading space and space-separated `key=value` tokens. -/
def fieldsStrOf (fs : List Field) : String :=
  if fs.isEmpty then "" else " " ++ String.intercalate " " (fs.map renderField)

/-- The ` caller=...` suffix appended when the caller string is nonempty. -/
def callerToken (c : String) : String := if c = "" then "" else " caller=" ++ c

/-- The full log line `timestamp [LEVEL] message fields...\n`. -/
def logLineOf (level : Level) (ts msg : String) (allFields : List Field) (callerStr : String) : String :=
  ts ++ " [" ++ levelNames level ++ "] " ++ msg ++ fieldsStrOf allFields ++ callerToken callerStr ++ "\n"

/-- The line a `log` call formats: the field list is the slice produced by
`allFields := append(l.fields, fields...)`, read back from the updated
heap. -/
def emittedLine (h : Heap) (l : zapLogger) (level : Level) (ts : String)
    (fr : Option Frame) (msg : String) (cfs : List Field) : String :=
  logLineOf level ts msg
    (heapRead (appendSlice h l.fields cfs).1 (appendSlice h l.fields cfs).2)
    (callerStrOf l fr)

/-- `func (l *zapLogger) log(level Level, msg string, fields ...Field)`:
append call-site fields to the logger's field slice, format the line, and
write it to the sink — or, when the sink write fails, to the fallback
standard logger (`log.Print`).  No error is returned in either case. -/
def zapLogger.log (l : zapLogger) (w : World) (level : Level) (ts : String)
    (fr : Option Frame) (msg : String) (cfs : List Field) : World :=
  let h' := (appendSlice w.heap l.fields cfs).1
  let line := emittedLine w.heap l level ts fr msg cfs
  if w.sinkOk l.output then
    { w with heap := h',
             sinks := fun i => if i = l.output then w.sinks i ++ [line] else w.sinks i }
  else
    { w with heap := h', fallback := w.fallback ++ [line] }

/-- `Debug`: gated on `l.level <= DebugLevel`. -/
def zapLogger.Debug (l : zapLogger) (w : World) (ts : String) (fr : Option Frame)
    (msg : String) (cfs : List Field) : World :=
  if l.level ≤ DebugLevel then l.log w DebugLevel ts fr msg cfs else w

/-- `Info`: gated on `l.level <= InfoLevel`. -/
def zapLogger.Info (l : zapLogger) (w : World) (ts : String) (fr : Option Frame)
    (msg : String) (cfs : List Field) : World :=
  if l.level ≤ InfoLevel then l.log w InfoLevel ts fr msg cfs else w

/-- `Warn`: gated on `l.level <= WarnLevel`. -/
def zapLogger.Warn (l : zapLogger) (w : World) (ts : String) (fr : Option Frame)
    (msg : String) (cfs : List Field) : World :=
  if l.level ≤ WarnLevel then l.log w WarnLevel ts fr msg cfs else w

/-- `Error`: gated on `l.level <= ErrorLevel`. -/
def zapLogger.Error (l : zapLogger) (w : World) (ts : String) (fr : Option Frame)
    (msg : String) (cfs : List Field) : World :=
  if l.level ≤ ErrorLevel then l.log w ErrorLevel ts fr msg cfs else w

/-- `Fatal`: unconditional `log` followed by `os.Exit(1)`. -/
def zapLogger.Fatal (l : zapLogger) (w : World) (ts : String) (fr : Option Frame)
    (msg : String) (cfs : List Field) : World :=
  let w' := l.log w FatalLevel ts fr msg cfs
  { w' with exited := some 1 }

/-- `WithField`: build a new logger over `append(l.fields, Field{key, value})`,
copying level, output, caller flag and skip depth. -/
def zapLogger.WithField (l : zapLogger) (h : Heap) (key : String) (value : Value) :
    Heap × zapLogger :=
  let hs := appendSlice h l.fields [⟨key, value⟩]
  (hs.1, { level := l.level, output := l.output, fields := hs.2,
           caller := l.caller, callerSkip := l.callerSkip })

/-- `WithFields`: same with `append(l.fields, fields...)`. -/
def zapLogger.WithFields (l : zapLogger) (h : Heap) (fs : List Field) :
    Heap × zapLogger :=
  let hs := appendSlice h l.fields fs
  (hs.1, { level := l.level, output := l.output, fields := hs.2,
           caller := l.caller, callerSkip := l.callerSkip })

/-! ## Global logger registry (`var globalLogger Logger = New(InfoLevel)`) -/

/-- The process-wide registry cell holding the active logger; package
state is passed explicitly, so a registry value is just its content. -/
abbrev GlobalReg := zapLogger

/-- `var globalLogger Logger = New(InfoLevel)`: the heap and logger the
registry holds at process start. -/
def globalLoggerInit : Heap × GlobalReg := New ⟨[]⟩ InfoLevel

/-- `func SetGlobalLogger(logger Logger)`: replaces the registry content. -/
def SetGlobalLogger (l : zapLogger) (_r : GlobalReg) : GlobalReg := l

/-- `func GetGlobalLogger() Logger`: reads the registry content. -/
def GetGlobalLogger (r : GlobalReg) : zapLogger := r

/-- Package-level `Debug`: `globalLogger.Debug(...)`, reading the registry
at the moment of the call. -/
def Debug (r : GlobalReg) (w : World) (ts : String) (fr : Option Frame)
    (msg : String) (cfs : List Field) : World :=
  (GetGlobalLogger r).Debug w ts fr msg cfs

/-- Package-level `Info`. -/
def Info (r : GlobalReg) (w : World) (ts : String) (fr : Option Frame)
    (msg : String) (cfs : List Field) : World :=
  (GetGlobalLogger r).Info w ts fr msg cfs

/-- Package-level `Warn`. -/
def Warn (r : GlobalReg) (w : World) (ts : String) (fr : Option Frame)
    (msg : String) (cfs : List Field) : World :=
  (GetGlobalLogger r).Warn w ts fr msg cfs

/-- Package-level `Error`. -/
def Error (r : GlobalReg) (w : World) (ts : String) (fr : Option Frame)
    (msg : String) (cfs : List Field) : World :=
  (GetGlobalLogger r).Error w ts fr msg cfs

/-- Package-level `Fatal`. -/
def Fatal (r : GlobalReg) (w : World) (ts : String) (fr : Option Frame)
    (msg : String) (cfs : List Field) : World :=
  (GetGlobalLogger r).Fatal w ts fr msg cfs

/-- Package-level `WithField`. -/
def WithField (r : GlobalReg) (h : Heap) (key : String) (value : Value) :
    Heap × zapLogger :=
  (GetGlobalLogger r).WithField h key value

/-- Package-level `WithFields`. -/
def WithFields (r : GlobalReg) (h : Heap) (fs : List Field) :
    Heap × zapLogger :=
  (GetGlobalLogger r).WithFields h fs

/-! ## HTTP handlers (`src/cmd/data_parser.go`) -/

/-- The fields `json.Decode` fills from a Confluence webhook body. -/
structure ConfluenceWebhook where
  event : String
  pageId : Int
  pageTitle : String
deriving DecidableEq, Repr

/-- An incoming HTTP request, reduced to what the handlers consult. -/
structure HttpRequest where
  method : String
  body : String
deriving DecidableEq, Repr

/-- The response a handler produces: status code, the Content-Type header
it sets explicitly (if any), and the body it writes. -/
structure HttpResponse where
  status : Nat
  contentType : Option String
  body : String
deriving DecidableEq, Repr

/-- Go `http.Error(w, msg, code)`: sets `text/plain; charset=utf-8`,
writes the status, and the message followed by a newline. -/
def httpError (msg : String) (code : Nat) : HttpResponse :=
  { status := code, contentType := some "text/plain; charset=utf-8", body := msg ++ "\n" }

/-- `func handleConfluenceWebhook(w, r)`: 405 for non-POST, 400 when the
body fails to decode, otherwise 200 with body `Webhook processed`.
JSON decoding (`json.NewDecoder(r.Body).Decode(&webhook)`) is the
standard library's; it enters the model as the `decode` parameter. -/
def handleConfluenceWebhook (decode : String → Option ConfluenceWebhook)
    (r : HttpRequest) : HttpResponse :=
  if r.method ≠ "POST" then httpError "Method not allowed" 405
  else
    match decode r.body with
    | none => httpError "Invalid payload" 400
    | some _ => { status := 200, contentType := none, body := "Webhook processed" }

/-- `func healthCheck(w, r)`: sets `application/json`, writes 200 and the
health body; the request (in particular its method) is never consulted.
`now` stands for `time.Now().Format(time.RFC3339)`. -/
def healthCheck (now : String) (_r : HttpRequest) : HttpResponse :=
  { status := 200, contentType := some "application/json",
    body := "\x7b\"status\":\"healthy\",\"timestamp\":\"" ++ now ++ "\"\x7d" }

/-! ## Configuration (`src/unnamed/part_002`)

`LoadConfig` consults the process environment, modelled as a partial map.
Durations go through Go's `time.ParseDuration`, modelled below faithfully
(sign, `"0"` special case, repeated number-fraction-unit groups, the
`ns/us/µs/μs/ms/s/m/h` unit map, and the `1<<63` overflow guards); the
only deviation is that the fractional contribution `f*(unit/scale)` is
computed with exact integer arithmetic where Go uses `float64`. -/

/-- Go `leadingInt`: consume leading decimal digits into an accumulator,
failing on overflow past `1<<63`; returns the value and the rest. -/
def leadingIntAux (x : Nat) : List Char → Option (Nat × List Char)
  | [] => some (x, [])
  | c :: cs =>
    if c.isDigit then
      if x > 2 ^ 63 / 10 then none
      else
        let x' := x * 10 + (c.toNat - '0'.toNat)
        if x' > 2 ^ 63 then none else leadingIntAux x' cs
    else some (x, c :: cs)

/-- Go `leadingFraction`: consume digits after the decimal point,
accumulating a numerator and a power-of-ten scale, silently stopping the
accumulation (but still consuming digits) on overflow. -/
def leadingFractionAux (x scale : Nat) (overflow : Bool) : List Char → Nat × Nat × List Char
  | [] => (x, scale, [])
  | c :: cs =>
    if c.isDigit then
      if overflow then leadingFractionAux x scale true cs
      else if x > (2 ^ 63 - 1) / 10 then leadingFractionAux x scale true cs
      else
        let y := x * 10 + (c.toNat - '0'.toNat)
        if y > 2 ^ 63 then leadingFractionAux x scale true cs
        else leadingFractionAux y (scale * 10) false cs
    else (x, scale, c :: cs)

/-- Go's `unitMap` (durations in nanoseconds). -/
def unitMap (u : String) : Option Nat :=
  if u = "ns" then some 1
  else if u = "us" then some 1000
  else if u = "µs" then some 1000
  else if u = "μs" then some 1000
  else if u = "ms" then some 1000000
  else if u = "s" then some 1000000000
  else if u = "m" then some 60000000000
  else if u = "h" then some 3600000000000
  else none

/-- The main loop of `ParseDuration`: one iteration per
`[0-9]*(\.[0-9]*)?unit` group.  Each iteration consumes at least one
character, so the fuel (initialised to the input length plus one) never
runs out on the real control flow. -/
def parseDurationLoop : Nat → Nat → List Char → Option Nat
  | 0, _, _ => none
  | _, d, [] => some d
  | fuel + 1, d, c₀ :: s₀ =>
    if ¬(c₀ = '.' ∨ c₀.isDigit) then none
    else
      match leadingIntAux 0 (c₀ :: s₀) with
      | none => none
      | some (v, s₁) =>
        let pre := s₁.length ≠ (c₀ :: s₀).length
        let fracStep :=
          match s₁ with
          | '.' :: rest =>
            let fr := leadingFractionAux 0 1 false rest
            (fr.1, fr.2.1, fr.2.2, decide (fr.2.2.length ≠ rest.length))
          | _ => (0, 1, s₁, false)
        let f := fracStep.1
        let scale := fracStep.2.1
        let s₂ := fracStep.2.2.1
        let post := fracStep.2.2.2
        if ¬pre ∧ ¬(post = true) then none
        else
          let u := s₂.takeWhile (fun c => ¬(c = '.' ∨ c.isDigit))
          let s₃ := s₂.drop u.length
          if u.length = 0 then none
          else
            match unitMap (String.mk u) with
            | none => none
            | some unit =>
              if v > 2 ^ 63 / unit then none
              else
                let v₁ := v * unit
                let v₂ := if f > 0 then v₁ + f * unit / scale else v₁
                if f > 0 ∧ v₂ > 2 ^ 63 then none
                else
                  let d' := d + v₂
                  if d' > 2 ^ 63 then none
                  else parseDurationLoop fuel d' s₃

/-- Go `time.ParseDuration`, returning nanoseconds (`none` = parse error). -/
def parseDuration (str : String) : Option Int :=
  let s₀ := str.toList
  let signStep :=
    match s₀ with
    | c :: rest => if c = '-' then (true, rest) else if c = '+' then (false, rest) else (false, s₀)
    | [] => (false, [])
  let neg := signStep.1
  let s₁ := signStep.2
  if s₁ = ['0'] then some 0
  else if s₁ = [] then none
  else
    match parseDurationLoop (s₁.length + 1) 0 s₁ with
    | none => none
    | some d =>
      if neg then some (-(d : Int))
      else if d > 2 ^ 63 - 1 then none
      else some (d : Int)

/-- The process environment as seen by `os.LookupEnv`. -/
abbrev Env := String → Option String

/-- `func getEnv(key, defaultValue string) string`. -/
def getEnv (key defaultValue : String) (env : Env) : String :=
  match env key with
  | some v => v
  | none => defaultValue

/-- `func getDurationEnv(key string, defaultValue time.Duration)`: the
parsed environment value when present and parseable, else the default. -/
def getDurationEnv (key : String) (defaultValue : Int) (env : Env) : Int :=
  match env key with
  | some v =>
    match parseDuration v with
    | some d => d
    | none => defaultValue
  | none => defaultValue

/-- `time.Second` in nanoseconds. -/
def Second : Int := 1000000000

/-- `type ServerConfig struct` (durations in nanoseconds). -/
structure ServerConfig where
  port : String
  readTimeout : Int
  writeTimeout : Int
  idleTimeout : Int
  shutdownTimeout : Int
  maxHeaderBytes : Int
deriving DecidableEq, Repr

/-- `type AppConfig struct`. -/
structure AppConfig where
  environment : String
  logLevel : String
deriving DecidableEq, Repr

/-- `type Config struct`. -/
structure Config where
  server : ServerConfig
  app : AppConfig
deriving DecidableEq, Repr

/-- `func LoadConfig() *Config`.  Note that `MaxHeaderBytes` is the
literal `1 << 20`, not an environment lookup.  (The source also defines a
`getIntEnv` helper, but no configuration value uses it.) -/
def LoadConfig (env : Env) : Config :=
  { server := { port := getEnv "PORT" "8080" env,
                readTimeout := getDurationEnv "READ_TIMEOUT" (15 * Second) env,
                writeTimeout := getDurationEnv "WRITE_TIMEOUT" (15 * Second) env,
                idleTimeout := getDurationEnv "IDLE_TIMEOUT" (60 * Second) env,
                shutdownTimeout := getDurationEnv "SHUTDOWN_TIMEOUT" (30 * Second) env,
                maxHeaderBytes := 1048576 },
    app := { environment := getEnv "ENVIRONMENT" "development" env,
             logLevel := getEnv "LOG_LEVEL" "info" env } }

/-! ## Slice lemmas -/

theorem getD_set_self {α : Type} (l : List α) (i : Nat) (a d : α) (h : i < l.length) :
    (l.set i a).getD i d = a := by
  simp [List.getD, List.getElem?_set, h]

theorem getD_concat {α : Type} (l : List α) (c d : α) :
    (l ++ [c]).getD l.length d = c := by
  induction l with
  | nil => rfl
  | cons a t ih => exact ih

/-- Reading back the slice returned by `append` yields the old elements
followed by the appended ones. -/
theorem appendSlice_read (h : Heap) (s : Slice) (xs : List Field) (hwf : wfSlice h s) :
    heapRead (appendSlice h s xs).1 (appendSlice h s xs).2 = heapRead h s ++ xs := by
  obtain ⟨h1, _h2, h3⟩ := hwf
  unfold appendSlice heapRead
  split
  · have hlen : ((h.arrays.getD s.arr []).take s.len).length = s.len := by
      rw [List.length_take]; omega
    rw [getD_set_self _ _ _ _ h1, List.append_assoc]
    rw [show s.len + xs.length
          = ((h.arrays.getD s.arr []).take s.len).length + xs.length from by rw [hlen]]
    rw [List.take_append, List.take_left]
  · dsimp only
    rw [getD_concat]
    apply List.take_of_length_le
    rw [List.length_append, List.length_take]
    omega

/-- `append` never changes the elements the receiving slice denotes: an
in-place write lands at indices at or beyond the receiver's length, and a
reallocation does not touch existing arrays. -/
theorem appendSlice_read_frozen (h : Heap) (s : Slice) (xs : List Field) (hwf : wfSlice h s) :
    heapRead (appendSlice h s xs).1 s = heapRead h s := by
  obtain ⟨h1, _h2, h3⟩ := hwf
  unfold appendSlice heapRead
  split
  · have hlen : ((h.arrays.getD s.arr []).take s.len).length = s.len := by
      rw [List.length_take]; omega
    have key := List.take_left ((h.arrays.getD s.arr []).take s.len)
      (xs ++ (h.arrays.getD s.arr []).drop (s.len + xs.length))
    rw [hlen] at key
    rw [getD_set_self _ _ _ _ h1, List.append_assoc, key]
  · rw [List.getD_append _ _ _ _ h1]

/-- `append` preserves well-formedness of the receiving slice. -/
theorem wfSlice_appendSlice (h : Heap) (s : Slice) (xs : List Field) (hwf : wfSlice h s) :
    wfSlice (appendSlice h s xs).1 s := by
  obtain ⟨h1, h2, h3⟩ := hwf
  unfold appendSlice wfSlice
  split
  · refine ⟨by simpa using h1, h2, ?_⟩
    rw [getD_set_self _ _ _ _ h1, List.append_assoc, List.length_append, List.length_take]
    omega
  · refine ⟨?_, h2, by rw [List.getD_append _ _ _ _ h1]; exact h3⟩
    rw [List.length_append]
    omega

/-- Under well-formedness, the formatted line renders exactly the
logger's fields followed by the call-site fields. -/
theorem emittedLine_eq (h : Heap) (l : zapLogger) (lv : Level) (ts : String)
    (fr : Option Frame) (msg : String) (cfs : List Field) (hwf : wfSlice h l.fields) :
    emittedLine h l lv ts fr msg cfs =
      logLineOf lv ts msg (heapRead h l.fields ++ cfs) (callerStrOf l fr) := by
  unfold emittedLine
  rw [appendSlice_read _ _ _ hwf]

/-! ## `log` write-path lemmas -/

theorem log_sinks_self (l : zapLogger) (w : World) (lv : Level) (ts : String)
    (fr : Option Frame) (msg : String) (cfs : List Field) (hok : w.sinkOk l.output = true) :
    (l.log w lv ts fr msg cfs).sinks l.output =
      w.sinks l.output ++ [emittedLine w.heap l lv ts fr msg cfs] := by
  simp [zapLogger.log, hok]

theorem log_sinks_other (l : zapLogger) (w : World) (lv : Level) (ts : String)
    (fr : Option Frame) (msg : String) (cfs : List Field) (i : Nat) (hi : i ≠ l.output) :
    (l.log w lv ts fr msg cfs).sinks i = w.sinks i := by
  unfold zapLogger.log
  split <;> simp [hi]

theorem log_fallback_ok (l : zapLogger) (w : World) (lv : Level) (ts : String)
    (fr : Option Frame) (msg : String) (cfs : List Field) (hok : w.sinkOk l.output = true) :
    (l.log w lv ts fr msg cfs).fallback = w.fallback := by
  simp [zapLogger.log, hok]

theorem log_fallback_fail (l : zapLogger) (w : World) (lv : Level) (ts : String)
    (fr : Option Frame) (msg : String) (cfs : List Field) (hfail : w.sinkOk l.output = false) :
    (l.log w lv ts fr msg cfs).fallback =
      w.fallback ++ [emittedLine w.heap l lv ts fr msg cfs] := by
  simp [zapLogger.log, hfail]

theorem log_sinks_fail (l : zapLogger) (w : World) (lv : Level) (ts : String)
    (fr : Option Frame) (msg : String) (cfs : List Field) (hfail : w.sinkOk l.output = false)
    (i : Nat) :
    (l.log w lv ts fr msg cfs).sinks i = w.sinks i := by
  simp [zapLogger.log, hfail]

theorem log_exited (l : zapLogger) (w : World) (lv : Level) (ts : String)
    (fr : Option Frame) (msg : String) (cfs : List Field) :
    (l.log w lv ts fr msg cfs).exited = w.exited := by
  unfold zapLogger.log
  split <;> rfl

/-! ## Shared concrete inputs for witnesses -/

/-- A fresh world over a given heap whose sink writes all succeed. -/
def emptyWorld (h : Heap) : World :=
  { heap := h, sinks := fun _ => [], sinkOk := fun _ => true, fallback := [], exited := none }

/-- A fresh world over a given heap whose sink writes all fail. -/
def failWorld (h : Heap) : World :=
  { heap := h, sinks := fun _ => [], sinkOk := fun _ => false, fallback := [], exited := none }

/-! ## C1 -/

/-- The derivation chain exhibiting shared backing arrays: three
single-field derivations take the field slice through capacities
1, 2 and 4 (Go doubles the capacity on growth), so the third derived
logger's slice has length 3 and capacity 4 and the next two sibling
derivations from it both write in place into cell 3 of the same array. -/
def c1Step0 : Heap × zapLogger := New ⟨[]⟩ InfoLevel

def c1Step1 : Heap × zapLogger := c1Step0.2.WithField c1Step0.1 "k1" (Value.VInt 1)

def c1Step2 : Heap × zapLogger := c1Step1.2.WithField c1Step1.1 "k2" (Value.VInt 2)

def c1Step3 : Heap × zapLogger := c1Step2.2.WithField c1Step2.1 "k3" (Value.VInt 3)

/-- First sibling: derived from `c1Step3`'s logger. -/
def c1SibD : Heap × zapLogger := c1Step3.2.WithField c1Step3.1 "d" (Value.VInt 4)

/-- Second sibling: derived from the same `c1Step3` logger afterwards. -/
def c1SibE : Heap × zapLogger := c1Step3.2.WithField c1SibD.1 "e" (Value.VInt 5)

/-- C1: the claim says a previously derived logger's accumulated field
sequence is unchanged by any later derivation from the same base, because
derivation copies the backing sequence.  The code refutes it: `WithField`
is a bare Go `append`, so when the base's slice has spare capacity two
sibling derivations write into the same backing-array cell.  Here sibling
`d`'s sequence reads `[k1, k2, k3, d]` at creation but `[k1, k2, k3, e]`
after the sibling `e` is derived — the shared cell was overwritten. -/
theorem c1_sibling_derivation_mutates_shared_array :
    heapRead c1SibD.1 c1SibD.2.fields
        = [⟨"k1", Value.VInt 1⟩, ⟨"k2", Value.VInt 2⟩, ⟨"k3", Value.VInt 3⟩, ⟨"d", Value.VInt 4⟩]
    ∧ heapRead c1SibE.1 c1SibD.2.fields
        = [⟨"k1", Value.VInt 1⟩, ⟨"k2", Value.VInt 2⟩, ⟨"k3", Value.VInt 3⟩, ⟨"e", Value.VInt 5⟩]
    ∧ heapRead c1SibE.1 c1SibD.2.fields ≠ heapRead c1SibD.1 c1SibD.2.fields := by
  decide

/-! ## C2 -/

/-- C2: each of Debug/Info/Warn/Error is a no-op when its level is below
the configured minimum, and formats and writes exactly one line to the
sink when its level is at or above the minimum. -/
theorem c2_level_gating (w : World) (l : zapLogger) (ts : String) (fr : Option Frame)
    (msg : String) (cfs : List Field) (hok : w.sinkOk l.output = true) :
    (DebugLevel < l.level → l.Debug w ts fr msg cfs = w) ∧
    (l.level ≤ DebugLevel →
      (l.Debug w ts fr msg cfs).sinks l.output
          = w.sinks l.output ++ [emittedLine w.heap l DebugLevel ts fr msg cfs]
      ∧ (∀ i, i ≠ l.output → (l.Debug w ts fr msg cfs).sinks i = w.sinks i)
      ∧ (l.Debug w ts fr msg cfs).fallback = w.fallback) ∧
    (InfoLevel < l.level → l.Info w ts fr msg cfs = w) ∧
    (l.level ≤ InfoLevel →
      (l.Info w ts fr msg cfs).sinks l.output
          = w.sinks l.output ++ [emittedLine w.heap l InfoLevel ts fr msg cfs]
      ∧ (∀ i, i ≠ l.output → (l.Info w ts fr msg cfs).sinks i = w.sinks i)
      ∧ (l.Info w ts fr msg cfs).fallback = w.fallback) ∧
    (WarnLevel < l.level → l.Warn w ts fr msg cfs = w) ∧
    (l.level ≤ WarnLevel →
      (l.Warn w ts fr msg cfs).sinks l.output
          = w.sinks l.output ++ [emittedLine w.heap l WarnLevel ts fr msg cfs]
      ∧ (∀ i, i ≠ l.output → (l.Warn w ts fr msg cfs).sinks i = w.sinks i)
      ∧ (l.Warn w ts fr msg cfs).fallback = w.fallback) ∧
    (ErrorLevel < l.level → l.Error w ts fr msg cfs = w) ∧
    (l.level ≤ ErrorLevel →
      (l.Error w ts fr msg cfs).sinks l.output
          = w.sinks l.output ++ [emittedLine w.heap l ErrorLevel ts fr msg cfs]
      ∧ (∀ i, i ≠ l.output → (l.Error w ts fr msg cfs).sinks i = w.sinks i)
      ∧ (l.Error w ts fr msg cfs).fallback = w.fallback) := by
  refine ⟨?_, ?_, ?_, ?_, ?_, ?_, ?_, ?_⟩
  · intro hgate
    unfold zapLogger.Debug
    rw [if_neg (not_le.mpr hgate)]
  · intro hpass
    unfold zapLogger.Debug
    rw [if_pos hpass]
    exact ⟨log_sinks_self _ _ _ _ _ _ _ hok,
           fun i hi => log_sinks_other _ _ _ _ _ _ _ _ hi,
           log_fallback_ok _ _ _ _ _ _ _ hok⟩
  · intro hgate
    unfold zapLogger.Info
    rw [if_neg (not_le.mpr hgate)]
  · intro hpass
    unfold zapLogger.Info
    rw [if_pos hpass]
    exact ⟨log_sinks_self _ _ _ _ _ _ _ hok,
           fun i hi => log_sinks_other _ _ _ _ _ _ _ _ hi,
           log_fallback_ok _ _ _ _ _ _ _ hok⟩
  · intro hgate
    unfold zapLogger.Warn
    rw [if_neg (not_le.mpr hgate)]
  · intro hpass
    unfold zapLogger.Warn
    rw [if_pos hpass]
    exact ⟨log_sinks_self _ _ _ _ _ _ _ hok,
           fun i hi => log_sinks_other _ _ _ _ _ _ _ _ hi,
           log_fallback_ok _ _ _ _ _ _ _ hok⟩
  · intro hgate
    unfold zapLogger.Error
    rw [if_neg (not_le.mpr hgate)]
  · intro hpass
    unfold zapLogger.Error
    rw [if_pos hpass]
    exact ⟨log_sinks_self _ _ _ _ _ _ _ hok,
           fun i hi => log_sinks_other _ _ _ _ _ _ _ _ hi,
           log_fallback_ok _ _ _ _ _ _ _ hok⟩

/-- Logger at minimum level Warn over a fresh heap, for the C2 witness. -/
def c2New : Heap × zapLogger := New ⟨[]⟩ WarnLevel

theorem c2_level_gating_witness :
    (c2New.2.Debug (emptyWorld c2New.1) "T" none "m" [] = emptyWorld c2New.1) ∧
    ((c2New.2.Warn (emptyWorld c2New.1) "T" none "m" []).sinks c2New.2.output
      = (emptyWorld c2New.1).sinks c2New.2.output
        ++ [emittedLine (emptyWorld c2New.1).heap c2New.2 WarnLevel "T" none "m" []]) := by
  have h := c2_level_gating (emptyWorld c2New.1) c2New.2 "T" none "m" [] rfl
  exact ⟨h.1 (by decide), (h.2.2.2.2.2.1 (by decide)).1⟩

/-! ## C3 -/

/-- C3: `WithField`/`WithFields` return a new logger whose field sequence
is the receiver's followed by the new field(s), sharing level, sink,
caller flag and skip depth; the receiver's own sequence is untouched, and
a logging call on the receiver after the derivation renders exactly its
original fields plus the call-site fields. -/
theorem c3_withfield_frame (h : Heap) (l : zapLogger) (key : String) (value : Value)
    (fs : List Field) (hwf : wfSlice h l.fields) :
    (heapRead (l.WithField h key value).1 (l.WithField h key value).2.fields
        = heapRead h l.fields ++ [⟨key, value⟩]) ∧
    ((l.WithField h key value).2.level = l.level
      ∧ (l.WithField h key value).2.output = l.output
      ∧ (l.WithField h key value).2.caller = l.caller
      ∧ (l.WithField h key value).2.callerSkip = l.callerSkip) ∧
    (heapRead (l.WithField h key value).1 l.fields = heapRead h l.fields) ∧
    (heapRead (l.WithFields h fs).1 (l.WithFields h fs).2.fields
        = heapRead h l.fields ++ fs) ∧
    ((l.WithFields h fs).2.level = l.level
      ∧ (l.WithFields h fs).2.output = l.output
      ∧ (l.WithFields h fs).2.caller = l.caller
      ∧ (l.WithFields h fs).2.callerSkip = l.callerSkip) ∧
    (heapRead (l.WithFields h fs).1 l.fields = heapRead h l.fields) ∧
    (∀ (sk : Nat → List String) (ok : Nat → Bool) (fb : List String) (ex : Option Int)
       (lv : Level) (ts : String) (fr : Option Frame) (msg : String) (cfs : List Field),
       ok l.output = true →
       (l.log { heap := (l.WithField h key value).1, sinks := sk, sinkOk := ok,
                fallback := fb, exited := ex } lv ts fr msg cfs).sinks l.output
         = sk l.output
           ++ [logLineOf lv ts msg (heapRead h l.fields ++ cfs) (callerStrOf l fr)]) := by
  have hwf' : wfSlice (l.WithField h key value).1 l.fields :=
    wfSlice_appendSlice h l.fields [⟨key, value⟩] hwf
  refine ⟨appendSlice_read h l.fields [⟨key, value⟩] hwf, ⟨rfl, rfl, rfl, rfl⟩,
          appendSlice_read_frozen h l.fields [⟨key, value⟩] hwf,
          appendSlice_read h l.fields fs hwf, ⟨rfl, rfl, rfl, rfl⟩,
          appendSlice_read_frozen h l.fields fs hwf, ?_⟩
  intro sk ok fb ex lv ts fr msg cfs hok
  rw [log_sinks_self _ _ _ _ _ _ _ hok]
  rw [show ({ heap := (l.WithField h key value).1, sinks := sk, sinkOk := ok,
              fallback := fb, exited := ex } : World).heap = (l.WithField h key value).1 from rfl]
  rw [emittedLine_eq _ _ _ _ _ _ _ hwf']
  have hfr : heapRead (l.WithField h key value).1 l.fields = heapRead h l.fields :=
    appendSlice_read_frozen h l.fields [⟨key, value⟩] hwf
  rw [hfr]

/-- Logger at minimum level Info over a fresh heap, for the C3 witness. -/
def c3New : Heap × zapLogger := New ⟨[]⟩ InfoLevel

theorem c3_withfield_frame_witness :
    (heapRead (c3New.2.WithField c3New.1 "a" (Value.VInt 1)).1
        (c3New.2.WithField c3New.1 "a" (Value.VInt 1)).2.fields
      = heapRead c3New.1 c3New.2.fields ++ [⟨"a", Value.VInt 1⟩]) ∧
    (heapRead (c3New.2.WithField c3New.1 "a" (Value.VInt 1)).1 c3New.2.fields
      = heapRead c3New.1 c3New.2.fields) ∧
    ((c3New.2.log { heap := (c3New.2.WithField c3New.1 "a" (Value.VInt 1)).1,
                    sinks := fun _ => [], sinkOk := fun _ => true,
                    fallback := [], exited := none } InfoLevel "T" none "m" []).sinks
        c3New.2.output
      = (fun _ => ([] : List String)) c3New.2.output
        ++ [logLineOf InfoLevel "T" "m" (heapRead c3New.1 c3New.2.fields ++ [])
              (callerStrOf c3New.2 none)]) := by
  have h := c3_withfield_frame c3New.1 c3New.2 "a" (Value.VInt 1) [] (by decide)
  exact ⟨h.1, h.2.2.1,
         h.2.2.2.2.2.2 (fun _ => []) (fun _ => true) [] none InfoLevel "T" none "m" [] rfl⟩

/-! ## C4 -/

/-- C4: an emitted line is `timestamp [LEVEL] message fields\n`, with the
logger's accumulated fields rendered before the call-site fields, each in
sequence (duplicates included, since the rendering maps over the whole
list), as space-separated `key=value` tokens; concretely, with timestamp
`T`, level Info, message `m`, fields `a=1, b="x"` and no caller output the
line is exactly `T [INFO] m a=1 b=x\n`, and with no fields `T [INFO] m\n`
with no trailing space. -/
theorem c4_line_format (w : World) (l : zapLogger) (lv : Level) (ts msg : String)
    (fr : Option Frame) (cfs : List Field) (hwf : wfSlice w.heap l.fields)
    (hok : w.sinkOk l.output = true) (hc : callerStrOf l fr = "") :
    ((l.log w lv ts fr msg cfs).sinks l.output
      = w.sinks l.output
        ++ [ts ++ " [" ++ levelNames lv ++ "] " ++ msg
              ++ fieldsStrOf (heapRead w.heap l.fields ++ cfs) ++ "\n"]) ∧
    (logLineOf InfoLevel "T" "m" [⟨"a", Value.VInt 1⟩, ⟨"b", Value.VStr "x"⟩] ""
      = "T [INFO] m a=1 b=x\n") ∧
    (logLineOf InfoLevel "T" "m" [] "" = "T [INFO] m\n") := by
  refine ⟨?_, by decide, by decide⟩
  rw [log_sinks_self _ _ _ _ _ _ _ hok, emittedLine_eq _ _ _ _ _ _ _ hwf]
  rw [logLineOf, hc]
  rw [show callerToken "" = "" from rfl, String.append_empty]

/-- Heap holding the logger-level fields `a=1, b="x"` for the C4 witness. -/
def c4Heap : Heap := ⟨[[⟨"a", Value.VInt 1⟩, ⟨"b", Value.VStr "x"⟩]]⟩

/-- Caller-disabled Debug-level logger over `c4Heap` for the C4 witness. -/
def c4Logger : zapLogger :=
  { level := DebugLevel, output := 0, fields := ⟨0, 2, 2⟩, caller := false, callerSkip := 2 }

theorem c4_line_format_witness :
    ((c4Logger.log (emptyWorld c4Heap) InfoLevel "T" none "m" []).sinks c4Logger.output
      = (emptyWorld c4Heap).sinks c4Logger.output
        ++ ["T" ++ " [" ++ levelNames InfoLevel ++ "] " ++ "m"
              ++ fieldsStrOf (heapRead c4Heap c4Logger.fields ++ []) ++ "\n"]) ∧
    ((c4Logger.log (emptyWorld c4Heap) InfoLevel "T" none "m" []).sinks c4Logger.output
      = ["T [INFO] m a=1 b=x\n"]) := by
  have h := c4_line_format (emptyWorld c4Heap) c4Logger InfoLevel "T" "m" none []
    (by decide) rfl rfl
  exact ⟨h.1, by rw [h.1]; decide⟩

/-! ## C5 -/

/-- C5: `Fatal` formats and writes the line and sets exit status 1 no
matter what the configured minimum level is (the statement holds for
every `l.level`, including levels above Fatal); the four gated methods
never touch the exit status, and at a level above Error all four are
no-ops while `Fatal` still writes. -/
theorem c5_fatal_always_writes_and_exits (w : World) (l : zapLogger) (ts : String)
    (fr : Option Frame) (msg : String) (cfs : List Field)
    (hok : w.sinkOk l.output = true) :
    ((l.Fatal w ts fr msg cfs).exited = some 1) ∧
    ((l.Fatal w ts fr msg cfs).sinks l.output
      = w.sinks l.output ++ [emittedLine w.heap l FatalLevel ts fr msg cfs]) ∧
    ((l.Debug w ts fr msg cfs).exited = w.exited) ∧
    ((l.Info w ts fr msg cfs).exited = w.exited) ∧
    ((l.Warn w ts fr msg cfs).exited = w.exited) ∧
    ((l.Error w ts fr msg cfs).exited = w.exited) ∧
    (ErrorLevel < l.level →
      l.Debug w ts fr msg cfs = w ∧ l.Info w ts fr msg cfs = w
      ∧ l.Warn w ts fr msg cfs = w ∧ l.Error w ts fr msg cfs = w) := by
  refine ⟨rfl, ?_, ?_, ?_, ?_, ?_, ?_⟩
  · exact log_sinks_self _ _ _ _ _ _ _ hok
  · unfold zapLogger.Debug
    split
    · exact log_exited _ _ _ _ _ _ _
    · rfl
  · unfold zapLogger.Info
    split
    · exact log_exited _ _ _ _ _ _ _
    · rfl
  · unfold zapLogger.Warn
    split
    · exact log_exited _ _ _ _ _ _ _
    · rfl
  · unfold zapLogger.Error
    split
    · exact log_exited _ _ _ _ _ _ _
    · rfl
  · intro hhigh
    refine ⟨?_, ?_, ?_, ?_⟩
    · unfold zapLogger.Debug
      rw [if_neg (not_le.mpr (lt_trans (by decide : DebugLevel < ErrorLevel) hhigh))]
    · unfold zapLogger.Info
      rw [if_neg (not_le.mpr (lt_trans (by decide : InfoLevel < ErrorLevel) hhigh))]
    · unfold zapLogger.Warn
      rw [if_neg (not_le.mpr (lt_trans (by decide : WarnLevel < ErrorLevel) hhigh))]
    · unfold zapLogger.Error
      rw [if_neg (not_le.mpr hhigh)]

/-- A logger whose minimum level 5 lies above Fatal, for the C5 witness. -/
def c5Logger : zapLogger :=
  { level := 5, output := 0, fields := ⟨0, 0, 0⟩, caller := true, callerSkip := 2 }

/-- One-empty-array heap making `c5Logger`'s field slice well formed. -/
def c5Heap : Heap := ⟨[[]]⟩

theorem c5_fatal_always_writes_and_exits_witness :
    ((c5Logger.Fatal (emptyWorld c5Heap) "T" none "m" []).exited = some 1) ∧
    ((c5Logger.Fatal (emptyWorld c5Heap) "T" none "m" []).sinks c5Logger.output
      = (emptyWorld c5Heap).sinks c5Logger.output
        ++ [emittedLine (emptyWorld c5Heap).heap c5Logger FatalLevel "T" none "m" []]) ∧
    (c5Logger.Error (emptyWorld c5Heap) "T" none "m" [] = emptyWorld c5Heap) := by
  have h := c5_fatal_always_writes_and_exits (emptyWorld c5Heap) c5Logger "T" none "m" [] rfl
  exact ⟨h.1, h.2.1, (h.2.2.2.2.2.2 (by decide)).2.2.2⟩

/-! ## C6 -/

/-- C6: when the primary sink write fails, the very line that would have
been written to the sink goes to the fallback writer instead, the sink
buffers are untouched, and the call still returns normally (the model of
`log` is a total function into `World`; no error value exists to
propagate, and the exit status is untouched).  When the write succeeds,
nothing reaches the fallback. -/
theorem c6_write_failure_falls_back (w : World) (l : zapLogger) (lv : Level) (ts : String)
    (fr : Option Frame) (msg : String) (cfs : List Field)
    (hfail : w.sinkOk l.output = false) :
    ((l.log w lv ts fr msg cfs).fallback
      = w.fallback ++ [emittedLine w.heap l lv ts fr msg cfs]) ∧
    (∀ i, (l.log w lv ts fr msg cfs).sinks i = w.sinks i) ∧
    ((l.log w lv ts fr msg cfs).exited = w.exited) ∧
    (∀ w' : World, w'.sinkOk l.output = true →
      (l.log w' lv ts fr msg cfs).fallback = w'.fallback) := by
  exact ⟨log_fallback_fail _ _ _ _ _ _ _ hfail,
         fun i => log_sinks_fail _ _ _ _ _ _ _ hfail i,
         log_exited _ _ _ _ _ _ _,
         fun w' hok => log_fallback_ok _ _ _ _ _ _ _ hok⟩

/-- Logger for the C6 witness. -/
def c6New : Heap × zapLogger := New ⟨[]⟩ InfoLevel

theorem c6_write_failure_falls_back_witness :
    ((c6New.2.log (failWorld c6New.1) InfoLevel "T" none "m" []).fallback
      = (failWorld c6New.1).fallback
        ++ [emittedLine (failWorld c6New.1).heap c6New.2 InfoLevel "T" none "m" []]) ∧
    ((c6New.2.log (failWorld c6New.1) InfoLevel "T" none "m" []).sinks c6New.2.output
      = (failWorld c6New.1).sinks c6New.2.output) ∧
    ((c6New.2.log (emptyWorld c6New.1) InfoLevel "T" none "m" []).fallback
      = (emptyWorld c6New.1).fallback) := by
  have h := c6_write_failure_falls_back (failWorld c6New.1) c6New.2 InfoLevel "T" none "m" [] rfl
  exact ⟨h.1, h.2.1 c6New.2.output, h.2.2.2 (emptyWorld c6New.1) rfl⟩

/-! ## C7 -/

/-- C7: the Confluence webhook handler answers 405 to any non-POST, 400
to a POST whose body fails to decode, and 200 with body
`Webhook processed` to a POST whose body decodes. -/
theorem c7_webhook_dispatch (decode : String → Option ConfluenceWebhook) (r : HttpRequest) :
    (r.method ≠ "POST" → handleConfluenceWebhook decode r = httpError "Method not allowed" 405
      ∧ (handleConfluenceWebhook decode r).status = 405) ∧
    (r.method = "POST" → decode r.body = none →
      handleConfluenceWebhook decode r = httpError "Invalid payload" 400
      ∧ (handleConfluenceWebhook decode r).status = 400) ∧
    (∀ wh, r.method = "POST" → decode r.body = some wh →
      (handleConfluenceWebhook decode r).status = 200
      ∧ (handleConfluenceWebhook decode r).body = "Webhook processed") := by
  refine ⟨?_, ?_, ?_⟩
  · intro hm
    rw [show handleConfluenceWebhook decode r = httpError "Method not allowed" 405 from by
      unfold handleConfluenceWebhook; rw [if_pos hm]]
    exact ⟨rfl, rfl⟩
  · intro hm hd
    rw [show handleConfluenceWebhook decode r = httpError "Invalid payload" 400 from by
      unfold handleConfluenceWebhook
      rw [if_neg (by simp [hm]), hd]]
    exact ⟨rfl, rfl⟩
  · intro wh hm hd
    rw [show handleConfluenceWebhook decode r
          = { status := 200, contentType := none, body := "Webhook processed" } from by
      unfold handleConfluenceWebhook
      rw [if_neg (by simp [hm]), hd]]
    exact ⟨rfl, rfl⟩

/-- The webhook body from the spec's round-trip example. -/
def exampleWebhookBody : String :=
  "\x7b\"event\":\"page_created\",\"page\":\x7b\"id\":1,\"title\":\"T\"\x7d\x7d"

/-- A decoder for the C7 witness: accepts exactly the example body,
standing in for `encoding/json` decoding into `ConfluenceWebhook`. -/
def exampleDecode : String → Option ConfluenceWebhook := fun s =>
  if s = exampleWebhookBody then some ⟨"page_created", 1, "T"⟩ else none

theorem c7_webhook_dispatch_witness :
    ((handleConfluenceWebhook exampleDecode ⟨"GET", exampleWebhookBody⟩).status = 405) ∧
    ((handleConfluenceWebhook exampleDecode ⟨"POST", "not json"⟩).status = 400) ∧
    ((handleConfluenceWebhook exampleDecode ⟨"POST", exampleWebhookBody⟩).status = 200
      ∧ (handleConfluenceWebhook exampleDecode ⟨"POST", exampleWebhookBody⟩).body
          = "Webhook processed") := by
  refine ⟨?_, ?_, ?_⟩
  · exact ((c7_webhook_dispatch exampleDecode ⟨"GET", exampleWebhookBody⟩).1 (by decide)).2
  · exact (((c7_webhook_dispatch exampleDecode ⟨"POST", "not json"⟩).2.1 rfl (by decide))).2
  · exact (c7_webhook_dispatch exampleDecode ⟨"POST", exampleWebhookBody⟩).2.2
      ⟨"page_created", 1, "T"⟩ rfl (by decide)

/-! ## C8 -/

/-- Environment refuting C8's universal sourcing: `READ_TIMEOUT` is set
but not a duration, and a hypothetical `MAX_HEADER_BYTES` variable is set
although the code never reads any such variable. -/
def c8Env : Env := fun k =>
  if k = "READ_TIMEOUT" then some "not-a-duration"
  else if k = "MAX_HEADER_BYTES" then some "2048" else none

/-- C8 counterexample: with `READ_TIMEOUT` set to a non-duration the
returned read timeout is the 15s default — identical to the fully unset
environment, not a value "from the environment" — and the max header size
is the constant `1 << 20` regardless of what the environment holds. -/
theorem c8_counterexample_env_not_sourced :
    c8Env "READ_TIMEOUT" = some "not-a-duration" ∧
    parseDuration "not-a-duration" = none ∧
    (LoadConfig c8Env).server.readTimeout = 15 * Second ∧
    (LoadConfig c8Env).server.readTimeout = (LoadConfig (fun _ => none)).server.readTimeout ∧
    c8Env "MAX_HEADER_BYTES" = some "2048" ∧
    (LoadConfig c8Env).server.maxHeaderBytes = 1048576 := by
  decide

/-- C8 (amended): with every variable unset `LoadConfig` returns exactly
the documented defaults; a set `PORT`/`ENVIRONMENT`/`LOG_LEVEL` value is
returned verbatim; a set timeout variable is returned when it parses as a
Go duration and falls back to its default when it does not; and the max
header size is the constant 1 MiB, not sourced from any variable. -/
theorem c8_config_sourcing (env : Env) :
    (LoadConfig (fun _ => none)
      = { server := { port := "8080", readTimeout := 15 * Second,
                      writeTimeout := 15 * Second, idleTimeout := 60 * Second,
                      shutdownTimeout := 30 * Second, maxHeaderBytes := 1048576 },
          app := { environment := "development", logLevel := "info" } }) ∧
    (∀ v, env "PORT" = some v → (LoadConfig env).server.port = v) ∧
    (∀ v, env "ENVIRONMENT" = some v → (LoadConfig env).app.environment = v) ∧
    (∀ v, env "LOG_LEVEL" = some v → (LoadConfig env).app.logLevel = v) ∧
    (∀ v d, env "READ_TIMEOUT" = some v → parseDuration v = some d →
      (LoadConfig env).server.readTimeout = d) ∧
    (∀ v, env "READ_TIMEOUT" = some v → parseDuration v = none →
      (LoadConfig env).server.readTimeout = 15 * Second) ∧
    (∀ v d, env "WRITE_TIMEOUT" = some v → parseDuration v = some d →
      (LoadConfig env).server.writeTimeout = d) ∧
    (∀ v, env "WRITE_TIMEOUT" = some v → parseDuration v = none →
      (LoadConfig env).server.writeTimeout = 15 * Second) ∧
    (∀ v d, env "IDLE_TIMEOUT" = some v → parseDuration v = some d →
      (LoadConfig env).server.idleTimeout = d) ∧
    (∀ v d, env "SHUTDOWN_TIMEOUT" = some v → parseDuration v = some d →
      (LoadConfig env).server.shutdownTimeout = d) ∧
    ((LoadConfig env).server.maxHeaderBytes = 1048576) ∧
    (env "PORT" = none → (LoadConfig env).server.port = "8080") ∧
    (env "READ_TIMEOUT" = none → (LoadConfig env).server.readTimeout = 15 * Second) ∧
    (env "IDLE_TIMEOUT" = none → (LoadConfig env).server.idleTimeout = 60 * Second) ∧
    (env "SHUTDOWN_TIMEOUT" = none → (LoadConfig env).server.shutdownTimeout = 30 * Second) ∧
    (env "ENVIRONMENT" = none → (LoadConfig env).app.environment = "development") ∧
    (env "LOG_LEVEL" = none → (LoadConfig env).app.logLevel = "info") := by
  refine ⟨by decide, ?_, ?_, ?_, ?_, ?_, ?_, ?_, ?_, ?_, rfl, ?_, ?_, ?_, ?_, ?_, ?_⟩
  · intro v hv; simp [LoadConfig, getEnv, hv]
  · intro v hv; simp [LoadConfig, getEnv, hv]
  · intro v hv; simp [LoadConfig, getEnv, hv]
  · intro v d hv hd; simp [LoadConfig, getDurationEnv, hv, hd]
  · intro v hv hd; simp [LoadConfig, getDurationEnv, hv, hd]
  · intro v d hv hd; simp [LoadConfig, getDurationEnv, hv, hd]
  · intro v hv hd; simp [LoadConfig, getDurationEnv, hv, hd]
  · intro v d hv hd; simp [LoadConfig, getDurationEnv, hv, hd]
  · intro v d hv hd; simp [LoadConfig, getDurationEnv, hv, hd]
  · intro hv; simp [LoadConfig, getEnv, hv]
  · intro hv; simp [LoadConfig, getDurationEnv, hv]
  · intro hv; simp [LoadConfig, getDurationEnv, hv]
  · intro hv; simp [LoadConfig, getDurationEnv, hv]
  · intro hv; simp [LoadConfig, getEnv, hv]
  · intro hv; simp [LoadConfig, getEnv, hv]

/-- Environment for the C8 witness: one verbatim string value, one
parseable duration, one malformed duration, the rest unset. -/
def c8WitnessEnv : Env := fun k =>
  if k = "PORT" then some "9090"
  else if k = "READ_TIMEOUT" then some "5s"
  else if k = "WRITE_TIMEOUT" then some "soon" else none

theorem c8_config_sourcing_witness :
    ((LoadConfig c8WitnessEnv).server.port = "9090") ∧
    ((LoadConfig c8WitnessEnv).server.readTimeout = 5000000000) ∧
    ((LoadConfig c8WitnessEnv).server.writeTimeout = 15 * Second) ∧
    ((LoadConfig c8WitnessEnv).server.maxHeaderBytes = 1048576) ∧
    ((LoadConfig c8WitnessEnv).app.logLevel = "info") := by
  have h := c8_config_sourcing c8WitnessEnv
  exact ⟨h.2.1 "9090" (by decide),
         h.2.2.2.2.1 "5s" 5000000000 (by decide) (by decide),
         h.2.2.2.2.2.2.2.1 "soon" (by decide) (by decide),
         h.2.2.2.2.2.2.2.2.2.2.1,
         h.2.2.2.2.2.2.2.2.2.2.2.2.2.2.2.2 (by decide)⟩

/-! ## C9 -/

/-- C9: the registry starts as `New(InfoLevel)` — a logger writing to
standard output at minimum level Info with no accumulated fields — and
`SetGlobalLogger`/`GetGlobalLogger` replace and read the reference; every
package-level convenience function forwards to the registry content at
the moment of the call, so after `SetGlobalLogger l` the package-level
calls reach `l`. -/
theorem c9_global_registry :
    (globalLoggerInit.2.level = InfoLevel
      ∧ globalLoggerInit.2.output = stdoutSink
      ∧ heapRead globalLoggerInit.1 globalLoggerInit.2.fields = []) ∧
    (∀ (l : zapLogger) (r : GlobalReg), GetGlobalLogger (SetGlobalLogger l r) = l) ∧
    (∀ (r : GlobalReg) (w : World) (ts : String) (fr : Option Frame) (msg : String)
       (cfs : List Field),
      Debug r w ts fr msg cfs = (GetGlobalLogger r).Debug w ts fr msg cfs
      ∧ Info r w ts fr msg cfs = (GetGlobalLogger r).Info w ts fr msg cfs
      ∧ Warn r w ts fr msg cfs = (GetGlobalLogger r).Warn w ts fr msg cfs
      ∧ Error r w ts fr msg cfs = (GetGlobalLogger r).Error w ts fr msg cfs
      ∧ Fatal r w ts fr msg cfs = (GetGlobalLogger r).Fatal w ts fr msg cfs) ∧
    (∀ (r : GlobalReg) (h : Heap) (key : String) (value : Value) (fs : List Field),
      WithField r h key value = (GetGlobalLogger r).WithField h key value
      ∧ WithFields r h fs = (GetGlobalLogger r).WithFields h fs) ∧
    (∀ (l : zapLogger) (r : GlobalReg) (w : World) (ts : String) (fr : Option Frame)
       (msg : String) (cfs : List Field),
      Debug (SetGlobalLogger l r) w ts fr msg cfs = l.Debug w ts fr msg cfs
      ∧ Info (SetGlobalLogger l r) w ts fr msg cfs = l.Info w ts fr msg cfs
      ∧ Warn (SetGlobalLogger l r) w ts fr msg cfs = l.Warn w ts fr msg cfs
      ∧ Error (SetGlobalLogger l r) w ts fr msg cfs = l.Error w ts fr msg cfs
      ∧ Fatal (SetGlobalLogger l r) w ts fr msg cfs = l.Fatal w ts fr msg cfs) := by
  exact ⟨⟨rfl, rfl, rfl⟩,
         fun _ _ => rfl,
         fun _ _ _ _ _ _ => ⟨rfl, rfl, rfl, rfl, rfl⟩,
         fun _ _ _ _ _ => ⟨rfl, rfl⟩,
         fun _ _ _ _ _ _ _ => ⟨rfl, rfl, rfl, rfl, rfl⟩⟩

/-! ## C10 -/

/-- C10: the health-check handler never inspects the request: whatever
the method, it answers 200 with Content-Type `application/json` and the
health body carrying the formatted timestamp. -/
theorem c10_health_ignores_method (now : String) (r : HttpRequest) :
    (healthCheck now r
      = { status := 200, contentType := some "application/json",
          body := "\x7b\"status\":\"healthy\",\"timestamp\":\"" ++ now ++ "\"\x7d" }) ∧
    (∀ (m₁ m₂ b : String), healthCheck now ⟨m₁, b⟩ = healthCheck now ⟨m₂, b⟩) := by
  exact ⟨rfl, fun _ _ _ => rfl⟩

end Sarama
